import Mathlib

/-!
Verification of the Connect-Z game engine (`connectz.py`).

The Python source is embedded shallowly:

* Python list indexing (`xs[i]`, including negative-index wrap-around and
  `IndexError` as `none`) is modelled by `pyGet` / `pySet`.
* `int(s)` is modelled by `pyInt` (optional sign followed by decimal digits,
  surrounding whitespace stripped); a `ValueError` is `none`.
* Exceptions that the driver distinguishes are the constructors of `PyError`:
  an `AssertionError` with its message string, a `ValueError` from `int`,
  and an `IndexError`.  `main` catches only `AssertionError`; every other
  exception escapes as a crash, which `mainOutput` reports as `none`.
* The board is a list of `columns` column lists, each of length `rows`,
  exactly as built by `ConnectZGame.__init__`.
-/

set_option maxHeartbeats 1000000

namespace ConnectZ

/-- Python list read `xs[i]`: negative indices wrap once from the end,
out-of-range raises `IndexError` (modelled as `none`). -/
def pyGet {α : Type} (xs : List α) (i : Int) : Option α :=
  if 0 ≤ i then xs.get? i.toNat
  else if 0 ≤ (xs.length : Int) + i then xs.get? ((xs.length : Int) + i).toNat
  else none

/-- Python list write `xs[i] = v`: same index discipline as `pyGet`;
`none` models the `IndexError` case. -/
def pySet {α : Type} (xs : List α) (i : Int) (v : α) : Option (List α) :=
  if 0 ≤ i then
    if i.toNat < xs.length then some (xs.set i.toNat v) else none
  else if 0 ≤ (xs.length : Int) + i then
    some (xs.set ((xs.length : Int) + i).toNat v)
  else none

/-- Two-level read `board[c][r]`. -/
def pyGet2 (board : List (List Int)) (c r : Int) : Option Int :=
  (pyGet board c).bind fun col => pyGet col r

/-- The whitespace characters `int` strips from its argument. -/
def isPySpace (ch : Char) : Bool :=
  ch = ' ' || ch = '\t' || ch = '\n' || ch = '\r' || ch = '\x0b' || ch = '\x0c'

/-- Python `int(s)` on a decimal string: strips surrounding whitespace,
allows one leading sign, then requires a nonempty digit run.  (Python also
accepts underscore digit grouping, which the input files never use.)  A
`ValueError` is `none`. -/
def pyInt (s : String) : Option Int :=
  let cs := s.data.dropWhile isPySpace
  let cs := (cs.reverse.dropWhile isPySpace).reverse
  match cs with
  | [] => none
  | ch :: rest =>
    let sign : Int := if ch = '-' then -1 else 1
    let digits : List Char :=
      if ch = '-' || ch = '+' then rest else ch :: rest
    if digits ≠ [] ∧ digits.all Char.isDigit then
      some (sign *
        (digits.foldl (fun acc d => acc * 10 + (d.toNat - 48)) 0 : Nat))
    else none

/-- Python `str.split(sep)` for a one-character separator, on the character
list: every occurrence of `sep` ends a piece, empty pieces included, and
splitting the empty string yields one empty piece. -/
def pySplit (sep : Char) : List Char → List (List Char)
  | [] => [[]]
  | ch :: rest =>
    match pySplit sep rest with
    | [] => [[]]
    | h :: t => if ch = sep then [] :: h :: t else (ch :: h) :: t

/-- `str.split(sep)` as a `String` operation. -/
def pySplitOn (s : String) (sep : Char) : List String :=
  (pySplit sep s.data).map fun cs => String.mk cs

/-- The exceptions the driver can observe. -/
inductive PyError : Type
  | assertionError (msg : String)
  | valueError
  | indexError
  deriving DecidableEq, Repr

instance exceptDecidableEq {e a : Type} [DecidableEq e] [DecidableEq a] :
    DecidableEq (Except e a) := fun x y =>
  match x, y with
  | .error e1, .error e2 =>
    if h : e1 = e2 then isTrue (by rw [h])
    else isFalse (by intro hc; cases hc; exact h rfl)
  | .error _, .ok _ => isFalse (by intro hc; cases hc)
  | .ok _, .error _ => isFalse (by intro hc; cases hc)
  | .ok a1, .ok a2 =>
    if h : a1 = a2 then isTrue (by rw [h])
    else isFalse (by intro hc; cases hc; exact h rfl)

/-- `build_masks(i, j, win_length)`: the four index masks (right, down,
diagonal, inverse diagonal) checked from starting cell `(i, j)`. -/
def build_masks (i j : Int) (win_length : Nat) : List (List (Int × Int)) :=
  [ (List.range win_length).map (fun n : Nat => (i, j + (n : Int))),
    (List.range win_length).map (fun n : Nat => (i + (n : Int), j)),
    (List.range win_length).map (fun n : Nat => (i + (n : Int), j + (n : Int))),
    (List.range win_length).map (fun n : Nat =>
      (i - (n : Int) + (win_length : Int) - 1, j + (n : Int))) ]

/-- `sum(board[mx][my] for mx, my in mask)`: `none` models the `IndexError`
raised when any index of the mask is off the board. -/
def maskSum (board : List (List Int)) : List (Int × Int) → Option Int
  | [] => some 0
  | p :: rest =>
    match pyGet2 board p.1 p.2, maskSum board rest with
    | some v, some t => some (v + t)
    | _, _ => none

/-- The body of the mask loop in `WinChecker._square_contains_win`: a mask
whose sum is `+win_length` is a player-1 win, `-win_length` a player-2 win,
and an off-board mask (`IndexError`, i.e. `maskSum = none`) is skipped. -/
def maskVerdict (win_length : Nat) (board : List (List Int))
    (mask : List (Int × Int)) : Option String :=
  match maskSum board mask with
  | some t =>
    if t = (win_length : Int) then some "player 1 win"
    else if t = -(win_length : Int) then some "player 2 win"
    else none
  | none => none

/-- `WinChecker._square_contains_win`: try the four masks in order, return
the first verdict, else `"incomplete"`. -/
def squareContainsWin (win_length : Nat) (i j : Int)
    (board : List (List Int)) : String :=
  match (build_masks i j win_length).findSome? (maskVerdict win_length board) with
  | some s => s
  | none => "incomplete"

/-- The early-return condition of the scan loop in `WinChecker.check`. -/
def squareFilter (win_length : Nat) (board : List (List Int))
    (i j : Int) : Option String :=
  let s := squareContainsWin win_length i j board
  if s = "incomplete" then none else some s

/-- `WinChecker.check`: scan every cell as a mask start, returning the first
square verdict that is not `"incomplete"`; otherwise the board is a draw
exactly when no cell is `0`. -/
def check (rows columns win_length : Nat) (board : List (List Int)) : String :=
  match (List.range columns).findSome? (fun i : Nat =>
      (List.range rows).findSome? (fun j : Nat =>
        squareFilter win_length board (i : Int) (j : Int))) with
  | some s => s
  | none => if (board.flatten).contains 0 then "incomplete" else "draw"

/-- The mutable state of `ConnectZGame`. -/
structure ConnectZGame : Type where
  rows : Nat
  columns : Nat
  win_length : Nat
  board : List (List Int)
  status : String
  turn : Int
  column_counters : List Int
  deriving DecidableEq, Repr

/-- `ConnectZGame.__init__`: empty board of `columns` stacks of height
`rows`, incomplete status, player 1 to move, all counters at `rows - 1`. -/
def ConnectZGame.init (rows columns win_length : Nat) : ConnectZGame :=
  { rows := rows
    columns := columns
    win_length := win_length
    board := List.replicate columns (List.replicate rows 0)
    status := "incomplete"
    turn := 1
    column_counters := List.replicate columns ((rows : Int) - 1) }

/-- Result of `ConnectZGame.validate_move`: pass, a failed assertion with
its message, or an `IndexError` from the counter lookup. -/
inductive MoveCheck : Type
  | ok
  | err (msg : String)
  | indexError
  deriving DecidableEq, Repr

/-- `ConnectZGame.validate_move`, assertions in source order: column in
range (twice, both `"illegal column"`), column not full (`"illegal row"`),
game not already won (`"illegal continue"`). -/
def ConnectZGame.validate_move (g : ConnectZGame) (selected_col : Int) : MoveCheck :=
  if selected_col < 0 then .err "illegal column"
  else if (g.columns : Int) ≤ selected_col then .err "illegal column"
  else
    match pyGet g.column_counters selected_col with
    | none => .indexError
    | some cnt =>
      if cnt ≤ -1 then .err "illegal row"
      else if g.status = "player 1 win" ∨ g.status = "player 2 win" then
        .err "illegal continue"
      else .ok

/-- `ConnectZGame.make_move`: validate, place the counter at the column's
current level, recompute the status, decrement the counter, flip the turn.
The returned pair is the state after the call together with the returned
status or the exception; on an exception the state is unchanged (every
fallible step precedes the first mutation). -/
def ConnectZGame.make_move (g : ConnectZGame) (selected_col : Int) :
    ConnectZGame × Except PyError String :=
  match g.validate_move selected_col with
  | .err m => (g, .error (.assertionError m))
  | .indexError => (g, .error .indexError)
  | .ok =>
    match pyGet g.column_counters selected_col with
    | none => (g, .error .indexError)
    | some row_level =>
      match pyGet g.board selected_col with
      | none => (g, .error .indexError)
      | some colList =>
        match pySet colList row_level g.turn with
        | none => (g, .error .indexError)
        | some colList2 =>
          match pySet g.board selected_col colList2 with
          | none => (g, .error .indexError)
          | some board2 =>
            match pySet g.column_counters selected_col (row_level - 1) with
            | none => (g, .error .indexError)
            | some counters2 =>
              ({ g with
                  board := board2
                  status := check g.rows g.columns g.win_length board2
                  column_counters := counters2
                  turn := g.turn * (-1) },
               .ok (check g.rows g.columns g.win_length board2))

/-- `parse_game_dimensions`: exactly three tokens (`"invalid file"`),
each a decimal integer (`ValueError` otherwise), all positive and
`win_length ≤ min(rows, columns)` (`"illegal game"`). -/
def parse_game_dimensions : List String → Except PyError (Int × Int × Int)
  | [s1, s2, s3] =>
    match pyInt s1 with
    | none => .error .valueError
    | some rows =>
      match pyInt s2 with
      | none => .error .valueError
      | some columns =>
        match pyInt s3 with
        | none => .error .valueError
        | some win_length =>
          if ¬ (0 < min (min rows columns) win_length) then
            .error (.assertionError "illegal game")
          else if ¬ (win_length ≤ min rows columns) then
            .error (.assertionError "illegal game")
          else .ok (rows, columns, win_length)
  | _ => .error (.assertionError "invalid file")

/-- `parse_input` on the text of a readable file: split on newlines, the
first line split on single spaces gives the raw dimensions, the remaining
lines are the raw moves.  (`split` never returns an empty list, so the
`"invalid file"` branch of `parse_input` is unreachable.) -/
def parse_input_text (fileText : String) : List String × List String :=
  let file_lines := pySplitOn fileText '\n'
  (pySplitOn (file_lines.headD "") ' ', file_lines.drop 1)

/-- The move loop of `parse_and_play`: `game.make_move(int(move) - 1)` for
each raw move line, stopping at the first exception. -/
def playMoves (g : ConnectZGame) : List String → Except PyError ConnectZGame
  | [] => .ok g
  | mv :: rest =>
    match pyInt mv with
    | none => .error .valueError
    | some m =>
      match g.make_move (m - 1) with
      | (_, .error e) => .error e
      | (g2, .ok _) => playMoves g2 rest

/-- `parse_and_play` on file text: parse dimensions, build the game, play
every move, return the final `game.status`. -/
def parse_and_play (fileText : String) : Except PyError String :=
  let parsed := parse_input_text fileText
  match parse_game_dimensions parsed.1 with
  | .error e => .error e
  | .ok (rows, columns, win_length) =>
    (playMoves (ConnectZGame.init rows.toNat columns.toNat win_length.toNat)
        parsed.2).map ConnectZGame.status

/-- The `GAME_CODES` dictionary. -/
def GAME_CODES : List (String × Nat) :=
  [("draw", 0), ("player 1 win", 1), ("player 2 win", 2), ("incomplete", 3),
   ("illegal continue", 4), ("illegal row", 5), ("illegal column", 6),
   ("illegal game", 7), ("invalid file", 8), ("file error", 9)]

/-- Dictionary lookup `GAME_CODES[s]`; `none` models a `KeyError`. -/
def gameCodes (s : String) : Option Nat := GAME_CODES.lookup s

/-- What `main` prints for a readable file with the given text: the code of
the final status, or the code of a caught `AssertionError` message; any
other exception escapes uncaught (`none`: the process crashes and prints
no code). -/
def mainOutput (fileText : String) : Option Nat :=
  match parse_and_play fileText with
  | .ok st => gameCodes st
  | .error (.assertionError m) => gameCodes m
  | .error _ => none

/-! ### Specification-side vocabulary

The claims speak about "in-bounds runs of `winLength` consecutive cells in
one of the four directions".  The following definitions state that notion
directly; the theorems below relate it to the scan performed by `check`. -/

/-- The four win directions as `(column-step, row-step)` offsets:
vertical within a column, horizontal across columns, diagonal,
anti-diagonal. -/
def dirOffsets : List (Int × Int) := [(0, 1), (1, 0), (1, 1), (1, -1)]

/-- The `win_length` consecutive cells starting at `(c, r)` along
direction `d`. -/
def runCells (c r : Int) (d : Int × Int) (win_length : Nat) : List (Int × Int) :=
  (List.range win_length).map (fun n : Nat =>
    (c + (n : Int) * d.1, r + (n : Int) * d.2))

/-- Every listed cell lies inside the `rows × columns` board. -/
def runInBounds (rows columns : Nat) (cells : List (Int × Int)) : Bool :=
  cells.all (fun p =>
    decide (0 ≤ p.1) && decide (p.1 < (columns : Int)) &&
    decide (0 ≤ p.2) && decide (p.2 < (rows : Int)))

/-- Some in-bounds run of `win_length` consecutive cells, in one of the four
directions, sums to `target`. -/
def existsRun (rows columns win_length : Nat) (board : List (List Int))
    (target : Int) : Bool :=
  (List.range columns).any fun c =>
    (List.range rows).any fun r =>
      dirOffsets.any fun d =>
        runInBounds rows columns (runCells c r d win_length) &&
        (maskSum board (runCells c r d win_length) == some target)

/-- The board has `columns` column lists, each of length `rows`. -/
def Shaped (rows columns : Nat) (board : List (List Int)) : Prop :=
  board.length = columns ∧ ∀ col ∈ board, col.length = rows

/-- The representation invariant of a `ConnectZGame` reachable from
`ConnectZGame.init` through `make_move`: board of the declared shape,
counters list of the declared length with every counter in `[-1, rows)`,
the turn one of the two players, and every cell at or below a column's
counter still empty. -/
def GoodState (g : ConnectZGame) : Prop :=
  Shaped g.rows g.columns g.board ∧
  g.column_counters.length = g.columns ∧
  (∀ x ∈ g.column_counters, -1 ≤ x ∧ x < (g.rows : Int)) ∧
  (g.turn = 1 ∨ g.turn = -1) ∧
  (∀ c ∈ List.range g.columns, ∀ r ∈ List.range g.rows,
    (r : Int) ≤ g.column_counters.getD c 0 → (g.board.getD c []).getD r 1 = 0)

instance : Decidable (Shaped rows columns board) := by
  unfold Shaped; infer_instance

instance : Decidable (GoodState g) := by
  unfold GoodState; infer_instance

/-! ### Helper lemmas about the Python-list primitives -/

theorem pyGet_nonneg {α : Type} (xs : List α) (i : Int) (h : 0 ≤ i) :
    pyGet xs i = xs.get? i.toNat := by
  simp [pyGet, h]

theorem pyGet_natCast {α : Type} (xs : List α) (n : Nat) :
    pyGet xs (n : Int) = xs.get? n := by
  rw [pyGet_nonneg xs (n : Int) (by positivity)]
  simp

theorem pyGet_mem {α : Type} {xs : List α} {i : Int} {v : α}
    (h : pyGet xs i = some v) : v ∈ xs := by
  unfold pyGet at h
  split at h
  · exact List.get?_mem h
  · split at h
    · exact List.get?_mem h
    · exact absurd h (by simp)

theorem pyGet_some_bound {α : Type} {xs : List α} {i : Int} {v : α}
    (hi : 0 ≤ i) (h : pyGet xs i = some v) : i.toNat < xs.length := by
  rw [pyGet_nonneg xs i hi] at h
  by_contra hlt
  rw [List.get?_eq_none.mpr (Nat.le_of_not_lt hlt)] at h
  exact Option.noConfusion h

theorem pyGet_some_of_lt {α : Type} {xs : List α} {n : Nat}
    (h : n < xs.length) : pyGet xs (n : Int) = some (xs.get ⟨n, h⟩) := by
  rw [pyGet_natCast, List.get?_eq_get h]

theorem pySet_nonneg_some {α : Type} {xs ys : List α} {i : Int} {v : α}
    (hi : 0 ≤ i) (h : pySet xs i v = some ys) :
    ys = xs.set i.toNat v ∧ i.toNat < xs.length := by
  unfold pySet at h
  rw [if_pos hi] at h
  split at h
  · exact ⟨(Option.some_inj.mp h).symm, by assumption⟩
  · exact absurd h (by simp)

theorem pyGet2_some_bounds {rows columns : Nat} {board : List (List Int)}
    {c r : Int} {v : Int} (hs : Shaped rows columns board)
    (hc : 0 ≤ c) (hr : 0 ≤ r) (h : pyGet2 board c r = some v) :
    c < (columns : Int) ∧ r < (rows : Int) := by
  obtain ⟨hlen, hcols⟩ := hs
  unfold pyGet2 at h
  cases hcol : pyGet board c with
  | none => rw [hcol] at h; exact absurd h (by simp)
  | some col =>
    rw [hcol] at h
    replace h : pyGet col r = some v := h
    have h1 := pyGet_some_bound hc hcol
    have h2 := pyGet_some_bound hr h
    have hmem : col ∈ board := pyGet_mem hcol
    rw [hlen] at h1
    rw [hcols col hmem] at h2
    omega

theorem maskSum_some_cell {board : List (List Int)} :
    ∀ {mask : List (Int × Int)} {t : Int}, maskSum board mask = some t →
      ∀ p ∈ mask, ∃ v, pyGet2 board p.1 p.2 = some v := by
  intro mask
  induction mask with
  | nil => intro t _ p hp; exact absurd hp (by simp)
  | cons q rest ih =>
    intro t h p hp
    unfold maskSum at h
    cases hq : pyGet2 board q.1 q.2 with
    | none => rw [hq] at h; exact absurd h (by simp)
    | some v =>
      cases hrest : maskSum board rest with
      | none => rw [hq, hrest] at h; exact absurd h (by simp)
      | some t2 =>
        rcases List.mem_cons.mp hp with hpq | hpr
        · exact ⟨v, hpq ▸ hq⟩
        · exact ih hrest p hpr

theorem maskSum_cons_some {board : List (List Int)} {q : Int × Int}
    {l : List (Int × Int)} {v t : Int} (hq : pyGet2 board q.1 q.2 = some v)
    (hl : maskSum board l = some t) :
    maskSum board (q :: l) = some (v + t) := by
  simp [maskSum, hq, hl]

theorem maskSum_cons_none_left {board : List (List Int)} {q : Int × Int}
    {l : List (Int × Int)} (hq : pyGet2 board q.1 q.2 = none) :
    maskSum board (q :: l) = none := by
  unfold maskSum; rw [hq]

theorem maskSum_cons_none_right {board : List (List Int)} {q : Int × Int}
    {l : List (Int × Int)} (hl : maskSum board l = none) :
    maskSum board (q :: l) = none := by
  unfold maskSum; rw [hl]
  cases pyGet2 board q.1 q.2 <;> rfl

theorem maskSum_append (board : List (List Int)) (l1 l2 : List (Int × Int)) :
    maskSum board (l1 ++ l2) =
      (maskSum board l1).bind fun a => (maskSum board l2).map fun b => a + b := by
  induction l1 with
  | nil =>
    rw [List.nil_append]
    show maskSum board l2 = (some 0).bind fun a => (maskSum board l2).map fun b => a + b
    cases maskSum board l2 <;> simp
  | cons q rest ih =>
    rw [List.cons_append]
    cases hq : pyGet2 board q.1 q.2 with
    | none => rw [maskSum_cons_none_left hq, maskSum_cons_none_left hq]; rfl
    | some v =>
      cases h1 : maskSum board rest with
      | none =>
        rw [maskSum_cons_none_right (by rw [ih, h1]; rfl),
          maskSum_cons_none_right h1]
        rfl
      | some t1 =>
        cases h2 : maskSum board l2 with
        | none =>
          rw [maskSum_cons_none_right (by rw [ih, h1, h2]; rfl),
            maskSum_cons_some hq h1]
          rfl
        | some t2 =>
          rw [maskSum_cons_some hq (by rw [ih, h1, h2]; rfl),
            maskSum_cons_some hq h1]
          simp [add_assoc]

theorem maskSum_reverse (board : List (List Int)) (l : List (Int × Int)) :
    maskSum board l.reverse = maskSum board l := by
  induction l with
  | nil => rfl
  | cons q rest ih =>
    rw [List.reverse_cons, maskSum_append, ih]
    cases hq : pyGet2 board q.1 q.2 with
    | none =>
      rw [maskSum_cons_none_left hq]
      cases maskSum board rest <;> simp [maskSum, hq]
    | some v =>
      cases h1 : maskSum board rest with
      | none => rw [maskSum_cons_none_right h1]; rfl
      | some t1 =>
        rw [maskSum_cons_some hq h1]
        show (some t1).bind _ = _
        simp [maskSum, hq, add_comm]

theorem reverse_map_range {α : Type} (L : Nat) (f : Nat → α) :
    ((List.range L).map f).reverse = (List.range L).map (fun n => f (L - 1 - n)) := by
  rw [← List.map_reverse, List.range_eq_range', List.reverse_range',
    ← List.range_eq_range', List.map_map]
  apply List.map_congr_left
  intro n _
  simp only [Function.comp_apply, Nat.zero_add]

/-! ### Bridging the scan masks and the in-bounds runs -/

theorem findSome?_some_of_mem {α β : Type} {l : List α} {f : α → Option β}
    {a : α} {b : β} (ha : a ∈ l) (hb : f a = some b) :
    ∃ c, l.findSome? f = some c := by
  induction l with
  | nil => cases ha
  | cons x xs ih =>
    rw [List.findSome?_cons]
    cases hx : f x with
    | some y => exact ⟨y, rfl⟩
    | none =>
      rcases List.mem_cons.mp ha with rfl | hmem
      · rw [hx] at hb; cases hb
      · exact ih hmem

theorem build_masks_nonneg {i j : Int} (hi : 0 ≤ i) (hj : 0 ≤ j) {L : Nat} :
    ∀ mask ∈ build_masks i j L, ∀ p ∈ mask, 0 ≤ p.1 ∧ 0 ≤ p.2 := by
  intro mask hm p hp
  simp only [build_masks, List.mem_cons, List.not_mem_nil, or_false] at hm
  rcases hm with rfl | rfl | rfl | rfl <;>
    · simp only [List.mem_map, List.mem_range] at hp
      obtain ⟨n, hn, rfl⟩ := hp
      constructor <;> omega

theorem mask0_eq (i j : Int) (L : Nat) :
    (List.range L).map (fun n : Nat => (i, j + (n : Int))) = runCells i j (0, 1) L := by
  apply List.map_congr_left
  intro n _
  simp [runCells]

theorem mask1_eq (i j : Int) (L : Nat) :
    (List.range L).map (fun n : Nat => (i + (n : Int), j)) = runCells i j (1, 0) L := by
  apply List.map_congr_left
  intro n _
  simp

theorem mask2_eq (i j : Int) (L : Nat) :
    (List.range L).map (fun n : Nat => (i + (n : Int), j + (n : Int))) =
      runCells i j (1, 1) L := by
  apply List.map_congr_left
  intro n _
  simp

theorem mask3_eq (i j : Int) (L : Nat) :
    (List.range L).map (fun n : Nat =>
      (i - (n : Int) + (L : Int) - 1, j + (n : Int))) =
      (runCells i (j + (L : Int) - 1) (1, -1) L).reverse := by
  unfold runCells
  rw [reverse_map_range]
  apply List.map_congr_left
  intro n hn
  rw [List.mem_range] at hn
  have hcast : ((L - 1 - n : Nat) : Int) = (L : Int) - 1 - (n : Int) := by omega
  rw [Prod.ext_iff]
  constructor <;> (simp only [hcast]; ring_nf)

theorem runInBounds_cell {rows columns : Nat} {cells : List (Int × Int)}
    (h : runInBounds rows columns cells = true) {p : Int × Int} (hp : p ∈ cells) :
    0 ≤ p.1 ∧ p.1 < (columns : Int) ∧ 0 ≤ p.2 ∧ p.2 < (rows : Int) := by
  have hb := List.all_eq_true.mp h p hp
  simp only [Bool.and_eq_true, decide_eq_true_eq] at hb
  obtain ⟨⟨⟨h1, h2⟩, h3⟩, h4⟩ := hb
  exact ⟨h1, h2, h3, h4⟩

theorem runInBounds_intro {rows columns : Nat} {cells : List (Int × Int)}
    (h : ∀ p ∈ cells, 0 ≤ p.1 ∧ p.1 < (columns : Int) ∧ 0 ≤ p.2 ∧ p.2 < (rows : Int)) :
    runInBounds rows columns cells = true := by
  apply List.all_eq_true.mpr
  intro p hp
  simp only [Bool.and_eq_true, decide_eq_true_eq]
  obtain ⟨h1, h2, h3, h4⟩ := h p hp
  exact ⟨⟨⟨h1, h2⟩, h3⟩, h4⟩

theorem existsRun_intro {rows columns L : Nat} {board : List (List Int)}
    {target : Int} (c r : Nat) (hc : c < columns) (hr : r < rows)
    (d : Int × Int) (hd : d ∈ dirOffsets)
    (hb : runInBounds rows columns (runCells c r d L) = true)
    (hsum : maskSum board (runCells c r d L) = some target) :
    existsRun rows columns L board target = true := by
  unfold existsRun
  refine List.any_eq_true.mpr ⟨c, List.mem_range.mpr hc, ?_⟩
  refine List.any_eq_true.mpr ⟨r, List.mem_range.mpr hr, ?_⟩
  refine List.any_eq_true.mpr ⟨d, hd, ?_⟩
  simp [hb, hsum]

theorem existsRun_elim {rows columns L : Nat} {board : List (List Int)}
    {target : Int} (h : existsRun rows columns L board target = true) :
    ∃ c r : Nat, c < columns ∧ r < rows ∧ ∃ d ∈ dirOffsets,
      runInBounds rows columns (runCells c r d L) = true ∧
      maskSum board (runCells c r d L) = some target := by
  unfold existsRun at h
  obtain ⟨c, hc, h⟩ := List.any_eq_true.mp h
  obtain ⟨r, hr, h⟩ := List.any_eq_true.mp h
  obtain ⟨d, hd, h⟩ := List.any_eq_true.mp h
  simp only [Bool.and_eq_true, beq_iff_eq] at h
  exact ⟨c, r, List.mem_range.mp hc, List.mem_range.mp hr, d, hd, h.1, h.2⟩

theorem mask_to_run {rows columns L : Nat} {board : List (List Int)}
    (hs : Shaped rows columns board) (hL : 1 ≤ L) {i j : Nat}
    (hi : i < columns) (hj : j < rows) {mask : List (Int × Int)}
    (hm : mask ∈ build_masks (i : Int) (j : Int) L) {t : Int}
    (hsum : maskSum board mask = some t) :
    existsRun rows columns L board t = true := by
  have hnn := build_masks_nonneg (by positivity) (by positivity) mask hm
  have hbnd : ∀ p ∈ mask, 0 ≤ p.1 ∧ p.1 < (columns : Int) ∧
      0 ≤ p.2 ∧ p.2 < (rows : Int) := by
    intro p hp
    obtain ⟨v, hv⟩ := maskSum_some_cell hsum p hp
    have hb := pyGet2_some_bounds hs (hnn p hp).1 (hnn p hp).2 hv
    exact ⟨(hnn p hp).1, hb.1, (hnn p hp).2, hb.2⟩
  simp only [build_masks, List.mem_cons, List.not_mem_nil, or_false] at hm
  rcases hm with rfl | rfl | rfl | rfl
  · exact existsRun_intro i j hi hj (0, 1) (by simp [dirOffsets])
      (runInBounds_intro (by rw [← mask0_eq]; exact hbnd))
      (by rw [← mask0_eq]; exact hsum)
  · exact existsRun_intro i j hi hj (1, 0) (by simp [dirOffsets])
      (runInBounds_intro (by rw [← mask1_eq]; exact hbnd))
      (by rw [← mask1_eq]; exact hsum)
  · exact existsRun_intro i j hi hj (1, 1) (by simp [dirOffsets])
      (runInBounds_intro (by rw [← mask2_eq]; exact hbnd))
      (by rw [← mask2_eq]; exact hsum)
  · -- anti-diagonal: the mask is the reversed run starting at `(i, j+L-1)`
    have hmem : ((i : Int) - ((L - 1 : Nat) : Int) + (L : Int) - 1,
        (j : Int) + ((L - 1 : Nat) : Int)) ∈
        (List.range L).map (fun n : Nat =>
          ((i : Int) - (n : Int) + (L : Int) - 1, (j : Int) + (n : Int))) :=
      List.mem_map.mpr ⟨L - 1, List.mem_range.mpr (by omega), rfl⟩
    have htop := hbnd _ hmem
    have hjr : j + (L - 1) < rows := by
      rcases htop with ⟨_, _, _, h4⟩
      omega
    have hcast : ((j + (L - 1) : Nat) : Int) = (j : Int) + (L : Int) - 1 := by
      omega
    have heq : (List.range L).map (fun n : Nat =>
        ((i : Int) - (n : Int) + (L : Int) - 1, (j : Int) + (n : Int))) =
        (runCells (i : Int) ((j + (L - 1) : Nat) : Int) (1, -1) L).reverse := by
      rw [hcast]
      exact mask3_eq (i : Int) (j : Int) L
    have hrev : runCells (i : Int) ((j + (L - 1) : Nat) : Int) (1, -1) L =
        ((List.range L).map (fun n : Nat =>
          ((i : Int) - (n : Int) + (L : Int) - 1, (j : Int) + (n : Int)))).reverse := by
      rw [heq, List.reverse_reverse]
    refine existsRun_intro i (j + (L - 1)) hi hjr (1, -1) (by simp [dirOffsets])
      (runInBounds_intro ?_) ?_
    · intro p hp
      rw [hrev, List.mem_reverse] at hp
      exact hbnd p hp
    · rw [hrev, maskSum_reverse]
      exact hsum

theorem run_to_mask {rows columns L : Nat} {board : List (List Int)}
    (hL : 1 ≤ L) {c r : Nat} (hc : c < columns) (hr : r < rows)
    {d : Int × Int} (hd : d ∈ dirOffsets) {t : Int}
    (hb : runInBounds rows columns (runCells (c : Int) (r : Int) d L) = true)
    (hsum : maskSum board (runCells (c : Int) (r : Int) d L) = some t) :
    ∃ i j : Nat, i < columns ∧ j < rows ∧
      ∃ mask ∈ build_masks (i : Int) (j : Int) L, maskSum board mask = some t := by
  simp only [dirOffsets, List.mem_cons, List.not_mem_nil, or_false] at hd
  rcases hd with rfl | rfl | rfl | rfl
  · refine ⟨c, r, hc, hr,
      (List.range L).map (fun n : Nat => ((c : Int), (r : Int) + (n : Int))),
      ?_, ?_⟩
    · simp [build_masks]
    · rw [mask0_eq]; exact hsum
  · refine ⟨c, r, hc, hr,
      (List.range L).map (fun n : Nat => ((c : Int) + (n : Int), (r : Int))),
      ?_, ?_⟩
    · simp [build_masks]
    · rw [mask1_eq]; exact hsum
  · refine ⟨c, r, hc, hr,
      (List.range L).map (fun n : Nat =>
        ((c : Int) + (n : Int), (r : Int) + (n : Int))),
      ?_, ?_⟩
    · simp [build_masks]
    · rw [mask2_eq]; exact hsum
  · -- anti-diagonal run from `(c, r)`: the scan sees it at start `(c, r-(L-1))`
    have hlast : ((c : Int) + ((L - 1 : Nat) : Int) * 1,
        (r : Int) + ((L - 1 : Nat) : Int) * (-1)) ∈
        runCells (c : Int) (r : Int) (1, -1) L :=
      List.mem_map.mpr ⟨L - 1, List.mem_range.mpr (by omega), rfl⟩
    have hbot := runInBounds_cell hb hlast
    have hLr : L - 1 ≤ r := by
      rcases hbot with ⟨_, _, h3, _⟩
      simp only at h3
      omega
    have hcast : ((r - (L - 1) : Nat) : Int) + (L : Int) - 1 = (r : Int) := by
      omega
    refine ⟨c, r - (L - 1), hc, by omega,
      (List.range L).map (fun n : Nat =>
        ((c : Int) - (n : Int) + (L : Int) - 1,
         ((r - (L - 1) : Nat) : Int) + (n : Int))), ?_, ?_⟩
    · simp [build_masks]
    · rw [mask3_eq, hcast, maskSum_reverse]
      exact hsum

/-! ### From mask verdicts to the verdict of `check` -/

theorem maskVerdict_cases {L : Nat} {board : List (List Int)}
    {mask : List (Int × Int)} {s : String}
    (h : maskVerdict L board mask = some s) :
    (s = "player 1 win" ∧ maskSum board mask = some (L : Int)) ∨
    (s = "player 2 win" ∧ maskSum board mask = some (-(L : Int))) := by
  unfold maskVerdict at h
  cases hm : maskSum board mask with
  | none => rw [hm] at h; cases h
  | some t =>
    rw [hm] at h
    have h2 : (if t = (L : Int) then some "player 1 win"
        else if t = -(L : Int) then some "player 2 win" else none) = some s := h
    split_ifs at h2 with ht1 ht2
    · exact Or.inl ⟨(Option.some_inj.mp h2).symm, by rw [ht1]⟩
    · exact Or.inr ⟨(Option.some_inj.mp h2).symm, by rw [ht2]⟩

theorem maskVerdict_p1 {L : Nat} {board : List (List Int)}
    {mask : List (Int × Int)} (h : maskSum board mask = some (L : Int)) :
    maskVerdict L board mask = some "player 1 win" := by
  unfold maskVerdict
  rw [h]
  simp

theorem maskVerdict_p2 {L : Nat} (hL : 1 ≤ L) {board : List (List Int)}
    {mask : List (Int × Int)} (h : maskSum board mask = some (-(L : Int))) :
    maskVerdict L board mask = some "player 2 win" := by
  unfold maskVerdict
  rw [h]
  have hne : ¬ (-(L : Int) = (L : Int)) := by omega
  simp [hne]

theorem square_cases {L : Nat} {i j : Int} {board : List (List Int)} :
    squareContainsWin L i j board = "incomplete" ∨
    ∃ mask ∈ build_masks i j L,
      maskVerdict L board mask = some (squareContainsWin L i j board) := by
  unfold squareContainsWin
  cases hf : (build_masks i j L).findSome? (maskVerdict L board) with
  | none => exact Or.inl rfl
  | some s =>
    obtain ⟨m, hm, hv⟩ := List.exists_of_findSome?_eq_some hf
    exact Or.inr ⟨m, hm, hv⟩

theorem square_range {L : Nat} {i j : Int} {board : List (List Int)} :
    squareContainsWin L i j board = "player 1 win" ∨
    squareContainsWin L i j board = "player 2 win" ∨
    squareContainsWin L i j board = "incomplete" := by
  rcases @square_cases L i j board with
    hinc | ⟨m, _, hv⟩
  · exact Or.inr (Or.inr hinc)
  · rcases maskVerdict_cases hv with ⟨hs, _⟩ | ⟨hs, _⟩
    · exact Or.inl hs
    · exact Or.inr (Or.inl hs)

theorem square_sound_p1 {L : Nat} {i j : Int} {board : List (List Int)}
    (h : squareContainsWin L i j board = "player 1 win") :
    ∃ mask ∈ build_masks i j L, maskSum board mask = some (L : Int) := by
  rcases @square_cases L i j board with
    hinc | ⟨m, hm, hv⟩
  · rw [h] at hinc; exact absurd hinc (by decide)
  · rw [h] at hv
    rcases maskVerdict_cases hv with ⟨_, hs⟩ | ⟨hbad, _⟩
    · exact ⟨m, hm, hs⟩
    · exact absurd hbad (by decide)

theorem square_sound_p2 {L : Nat} {i j : Int} {board : List (List Int)}
    (h : squareContainsWin L i j board = "player 2 win") :
    ∃ mask ∈ build_masks i j L, maskSum board mask = some (-(L : Int)) := by
  rcases @square_cases L i j board with
    hinc | ⟨m, hm, hv⟩
  · rw [h] at hinc; exact absurd hinc (by decide)
  · rw [h] at hv
    rcases maskVerdict_cases hv with ⟨hbad, _⟩ | ⟨_, hs⟩
    · exact absurd hbad (by decide)
    · exact ⟨m, hm, hs⟩

theorem square_complete_p1 {L : Nat} {i j : Int} {board : List (List Int)}
    (hex : ∃ mask ∈ build_masks i j L, maskSum board mask = some (L : Int))
    (hno : ∀ mask ∈ build_masks i j L, maskSum board mask ≠ some (-(L : Int))) :
    squareContainsWin L i j board = "player 1 win" := by
  obtain ⟨m, hm, hv⟩ := hex
  obtain ⟨s, hs⟩ := findSome?_some_of_mem hm (maskVerdict_p1 hv)
  unfold squareContainsWin
  rw [hs]
  obtain ⟨m2, hm2, hv2⟩ := List.exists_of_findSome?_eq_some hs
  rcases maskVerdict_cases hv2 with ⟨rfl, _⟩ | ⟨rfl, hsum2⟩
  · rfl
  · exact absurd hsum2 (hno m2 hm2)

theorem square_complete_p2 {L : Nat} (hL : 1 ≤ L) {i j : Int}
    {board : List (List Int)}
    (hex : ∃ mask ∈ build_masks i j L, maskSum board mask = some (-(L : Int)))
    (hno : ∀ mask ∈ build_masks i j L, maskSum board mask ≠ some (L : Int)) :
    squareContainsWin L i j board = "player 2 win" := by
  obtain ⟨m, hm, hv⟩ := hex
  obtain ⟨s, hs⟩ := findSome?_some_of_mem hm (maskVerdict_p2 hL hv)
  unfold squareContainsWin
  rw [hs]
  obtain ⟨m2, hm2, hv2⟩ := List.exists_of_findSome?_eq_some hs
  rcases maskVerdict_cases hv2 with ⟨rfl, hsum2⟩ | ⟨rfl, _⟩
  · exact absurd hsum2 (hno m2 hm2)
  · rfl

theorem check_cases (rows columns L : Nat) (board : List (List Int)) :
    (check rows columns L board =
        (if (board.flatten).contains 0 then "incomplete" else "draw") ∧
      ∀ i ∈ List.range columns, ∀ j ∈ List.range rows,
        squareContainsWin L (i : Int) (j : Int) board = "incomplete") ∨
    ∃ i ∈ List.range columns, ∃ j ∈ List.range rows,
      squareContainsWin L (i : Int) (j : Int) board ≠ "incomplete" ∧
      check rows columns L board = squareContainsWin L (i : Int) (j : Int) board := by
  unfold check
  cases hf : (List.range columns).findSome? (fun i : Nat =>
      (List.range rows).findSome? (fun j : Nat =>
        squareFilter L board (i : Int) (j : Int))) with
  | none =>
    left
    refine ⟨rfl, ?_⟩
    intro i hi j hj
    have h1 := (List.findSome?_eq_none_iff.mp hf) i hi
    have h2 := (List.findSome?_eq_none_iff.mp h1) j hj
    unfold squareFilter at h2
    by_contra hne
    rw [if_neg hne] at h2
    cases h2
  | some s =>
    right
    obtain ⟨i, hi, hInner⟩ := List.exists_of_findSome?_eq_some hf
    obtain ⟨j, hj, hflt⟩ := List.exists_of_findSome?_eq_some hInner
    unfold squareFilter at hflt
    by_cases hinc : squareContainsWin L (i : Int) (j : Int) board = "incomplete"
    · rw [if_pos hinc] at hflt; cases hflt
    · rw [if_neg hinc] at hflt
      exact ⟨i, hi, j, hj, hinc, (Option.some_inj.mp hflt).symm⟩

theorem check_sound_p1 {rows columns L : Nat} {board : List (List Int)}
    (hs : Shaped rows columns board) (hL : 1 ≤ L)
    (h : check rows columns L board = "player 1 win") :
    existsRun rows columns L board (L : Int) = true := by
  rcases check_cases rows columns L board with ⟨hval, _⟩ | ⟨i, hi, j, hj, _, hval⟩
  · rw [h] at hval
    split_ifs at hval <;> exact absurd hval (by decide)
  · rw [h] at hval
    obtain ⟨m, hm, hsum⟩ := square_sound_p1 hval.symm
    exact mask_to_run hs hL (List.mem_range.mp hi) (List.mem_range.mp hj) hm hsum

theorem check_sound_p2 {rows columns L : Nat} {board : List (List Int)}
    (hs : Shaped rows columns board) (hL : 1 ≤ L)
    (h : check rows columns L board = "player 2 win") :
    existsRun rows columns L board (-(L : Int)) = true := by
  rcases check_cases rows columns L board with ⟨hval, _⟩ | ⟨i, hi, j, hj, _, hval⟩
  · rw [h] at hval
    split_ifs at hval <;> exact absurd hval (by decide)
  · rw [h] at hval
    obtain ⟨m, hm, hsum⟩ := square_sound_p2 hval.symm
    exact mask_to_run hs hL (List.mem_range.mp hi) (List.mem_range.mp hj) hm hsum

theorem no_mask_of_no_run {rows columns L : Nat} {board : List (List Int)}
    (hs : Shaped rows columns board) (hL : 1 ≤ L) {target : Int}
    (hno : existsRun rows columns L board target = false) :
    ∀ i ∈ List.range columns, ∀ j ∈ List.range rows,
      ∀ mask ∈ build_masks (i : Int) (j : Int) L,
        maskSum board mask ≠ some target := by
  intro i hi j hj mask hm hsum
  rw [mask_to_run hs hL (List.mem_range.mp hi) (List.mem_range.mp hj) hm hsum]
    at hno
  cases hno

theorem check_complete_p1 {rows columns L : Nat} {board : List (List Int)}
    (hs : Shaped rows columns board) (hL : 1 ≤ L)
    (hplus : existsRun rows columns L board (L : Int) = true)
    (hminus : existsRun rows columns L board (-(L : Int)) = false) :
    check rows columns L board = "player 1 win" := by
  have hnom := no_mask_of_no_run hs hL hminus
  obtain ⟨c, r, hc, hr, d, hd, hb, hsum⟩ := existsRun_elim hplus
  obtain ⟨i, j, hi, hj, mask, hm, hmsum⟩ := run_to_mask hL hc hr hd hb hsum
  have hsq : squareContainsWin L (i : Int) (j : Int) board = "player 1 win" :=
    square_complete_p1 ⟨mask, hm, hmsum⟩
      (hnom i (List.mem_range.mpr hi) j (List.mem_range.mpr hj))
  rcases check_cases rows columns L board with
    ⟨_, hall⟩ | ⟨i2, hi2, j2, hj2, hne2, hval⟩
  · have hbad := hall i (List.mem_range.mpr hi) j (List.mem_range.mpr hj)
    rw [hsq] at hbad
    exact absurd hbad (by decide)
  · rw [hval]
    rcases @square_range L (i2 : Int) (j2 : Int) board with h1 | h2 | h3
    · exact h1
    · obtain ⟨m2, hm2, hs2⟩ := square_sound_p2 h2
      exact absurd hs2 (hnom i2 hi2 j2 hj2 m2 hm2)
    · exact absurd h3 hne2

theorem check_complete_p2 {rows columns L : Nat} {board : List (List Int)}
    (hs : Shaped rows columns board) (hL : 1 ≤ L)
    (hminus : existsRun rows columns L board (-(L : Int)) = true)
    (hplus : existsRun rows columns L board (L : Int) = false) :
    check rows columns L board = "player 2 win" := by
  have hnom := no_mask_of_no_run hs hL hplus
  obtain ⟨c, r, hc, hr, d, hd, hb, hsum⟩ := existsRun_elim hminus
  obtain ⟨i, j, hi, hj, mask, hm, hmsum⟩ := run_to_mask hL hc hr hd hb hsum
  have hsq : squareContainsWin L (i : Int) (j : Int) board = "player 2 win" :=
    square_complete_p2 hL ⟨mask, hm, hmsum⟩
      (hnom i (List.mem_range.mpr hi) j (List.mem_range.mpr hj))
  rcases check_cases rows columns L board with
    ⟨_, hall⟩ | ⟨i2, hi2, j2, hj2, hne2, hval⟩
  · have hbad := hall i (List.mem_range.mpr hi) j (List.mem_range.mpr hj)
    rw [hsq] at hbad
    exact absurd hbad (by decide)
  · rw [hval]
    rcases @square_range L (i2 : Int) (j2 : Int) board with h1 | h2 | h3
    · obtain ⟨m2, hm2, hs2⟩ := square_sound_p1 h1
      exact absurd hs2 (hnom i2 hi2 j2 hj2 m2 hm2)
    · exact h2
    · exact absurd h3 hne2

theorem check_no_win {rows columns L : Nat} {board : List (List Int)}
    (hs : Shaped rows columns board) (hL : 1 ≤ L)
    (hplus : existsRun rows columns L board (L : Int) = false)
    (hminus : existsRun rows columns L board (-(L : Int)) = false) :
    check rows columns L board =
      (if (board.flatten).contains 0 then "incomplete" else "draw") := by
  rcases check_cases rows columns L board with
    ⟨hval, _⟩ | ⟨i, hi, j, hj, hne, hval⟩
  · exact hval
  · exfalso
    rcases @square_range L (i : Int) (j : Int) board with h1 | h2 | h3
    · obtain ⟨m, hm, hsum⟩ := square_sound_p1 h1
      exact no_mask_of_no_run hs hL hplus i hi j hj m hm hsum
    · obtain ⟨m, hm, hsum⟩ := square_sound_p2 h2
      exact no_mask_of_no_run hs hL hminus i hi j hj m hm hsum
    · exact hne h3

/-! ### Sums of runs over boards with cells in -1, 0, +1 -/

theorem pyGet2_val {board : List (List Int)} {c r v : Int}
    (h : pyGet2 board c r = some v) : ∃ col ∈ board, v ∈ col := by
  unfold pyGet2 at h
  cases hc : pyGet board c with
  | none => rw [hc] at h; cases h
  | some col =>
    rw [hc] at h
    replace h : pyGet col r = some v := h
    exact ⟨col, pyGet_mem hc, pyGet_mem h⟩

theorem maskSum_bounds {board : List (List Int)}
    (hcells : ∀ col ∈ board, ∀ v ∈ col, v = -1 ∨ v = 0 ∨ v = 1) :
    ∀ {cells : List (Int × Int)} {t : Int}, maskSum board cells = some t →
      -(cells.length : Int) ≤ t ∧ t ≤ (cells.length : Int) := by
  intro cells
  induction cells with
  | nil =>
    intro t h
    replace h : some (0 : Int) = some t := h
    injection h with h
    simp [← h]
  | cons q rest ih =>
    intro t h
    cases hq : pyGet2 board q.1 q.2 with
    | none => rw [maskSum_cons_none_left hq] at h; cases h
    | some v =>
      cases hrest : maskSum board rest with
      | none => rw [maskSum_cons_none_right hrest] at h; cases h
      | some t1 =>
        rw [maskSum_cons_some hq hrest] at h
        injection h with h
        obtain ⟨col, hcol, hv⟩ := pyGet2_val hq
        have hvr := hcells col hcol v hv
        have hih := ih hrest
        simp only [List.length_cons, Nat.cast_add, Nat.cast_one]
        rcases hvr with rfl | rfl | rfl <;> omega

theorem maskSum_const_iff {board : List (List Int)}
    (hcells : ∀ col ∈ board, ∀ v ∈ col, v = -1 ∨ v = 0 ∨ v = 1)
    {e : Int} (he : e = 1 ∨ e = -1) :
    ∀ cells : List (Int × Int),
      maskSum board cells = some (e * (cells.length : Int)) ↔
        ∀ p ∈ cells, pyGet2 board p.1 p.2 = some e := by
  intro cells
  induction cells with
  | nil =>
    constructor
    · intro _ p hp
      exact absurd hp (List.not_mem_nil p)
    · intro _
      show some (0 : Int) = some (e * ((0 : Nat) : Int))
      simp
  | cons q rest ih =>
    constructor
    · intro h
      cases hq : pyGet2 board q.1 q.2 with
      | none => rw [maskSum_cons_none_left hq] at h; cases h
      | some v =>
        cases hrest : maskSum board rest with
        | none => rw [maskSum_cons_none_right hrest] at h; cases h
        | some t1 =>
          rw [maskSum_cons_some hq hrest] at h
          injection h with h
          obtain ⟨col, hcol, hv⟩ := pyGet2_val hq
          have hvr := hcells col hcol v hv
          have hb := maskSum_bounds hcells hrest
          simp only [List.length_cons, Nat.cast_add, Nat.cast_one] at h
          have hv1 : v = e ∧ t1 = e * (rest.length : Int) := by
            rcases he with rfl | rfl <;> rcases hvr with rfl | rfl | rfl <;>
              constructor <;> omega
          intro p hp
          rcases List.mem_cons.mp hp with rfl | hpr
          · rw [hq, hv1.1]
          · exact (ih.mp (by rw [hrest, hv1.2])) p hpr
    · intro h
      have hq := h q (List.mem_cons_self q rest)
      have hrest : maskSum board rest = some (e * (rest.length : Int)) :=
        ih.mpr (fun p hp => h p (List.mem_cons_of_mem q hp))
      rw [maskSum_cons_some hq hrest]
      congr 1
      simp only [List.length_cons, Nat.cast_add, Nat.cast_one]
      ring

theorem maskSum_zero_board {rows columns : Nat} :
    ∀ {cells : List (Int × Int)} {t : Int},
      maskSum (List.replicate columns (List.replicate rows 0)) cells = some t →
      t = 0 := by
  intro cells
  induction cells with
  | nil =>
    intro t h
    replace h : some (0 : Int) = some t := h
    injection h with h
    exact h.symm
  | cons q rest ih =>
    intro t h
    cases hq : pyGet2 (List.replicate columns (List.replicate rows 0)) q.1 q.2 with
    | none => rw [maskSum_cons_none_left hq] at h; cases h
    | some v =>
      cases hrest : maskSum (List.replicate columns (List.replicate rows 0)) rest with
      | none => rw [maskSum_cons_none_right hrest] at h; cases h
      | some t1 =>
        rw [maskSum_cons_some hq hrest] at h
        injection h with h
        obtain ⟨col, hcol, hv⟩ := pyGet2_val hq
        have hv0 : v = 0 := by
          rw [List.eq_of_mem_replicate hcol] at hv
          exact List.eq_of_mem_replicate hv
        rw [← h, hv0, ih hrest, zero_add]

theorem existsRun_zero_board {rows columns L : Nat} {target : Int}
    (htgt : target ≠ 0) :
    existsRun rows columns L (List.replicate columns (List.replicate rows 0))
      target = false := by
  by_contra hne
  rw [Bool.not_eq_false] at hne
  obtain ⟨c, r, _, _, d, _, _, hsum⟩ := existsRun_elim hne
  exact htgt (maskSum_zero_board hsum)

theorem contains_iff_mem {l : List Int} {a : Int} :
    l.contains a = true ↔ a ∈ l :=
  List.elem_iff

/-! ### Claims C3, C4, C5 about `WinChecker.check` -/

/-- Claim C3, counterexample to the claim as stated: on the 1-row, 2-column
board `[[-1], [1]]` with `winLength = 1` there is an in-bounds run summing
to `+1`, yet `check` returns `"player 2 win"` — the player-1 run of the
other column is never reported, so "returns player-1-win iff some run sums
to `+winLength`" fails. -/
theorem evaluate_win_iff_counterexample :
    check 1 2 1 [[-1], [1]] = "player 2 win" ∧
    existsRun 1 2 1 [[-1], [1]] 1 = true ∧
    ¬ (check 1 2 1 [[-1], [1]] = "player 1 win" ↔
        existsRun 1 2 1 [[-1], [1]] 1 = true) := by
  decide

/-- Claim C3 (amended): for boards with cells in -1, 0, +1 and
`winLength ≥ 1`, `check` reports a win for a player only if that player has
an in-bounds run summing to plus-or-minus `winLength`; if exactly one
player has such a run, `check` reports exactly that player's win (when both
players have runs, the scan returns the first one found, so the plain
if-and-only-if of the original claim fails); a board with no such run never
returns a win; and (the parenthetical equivalence) a run of in-bounds cells
sums to plus-or-minus its length exactly when every cell holds `+1`
(resp. `-1`). -/
theorem evaluate_win_iff_runs_amended (rows columns L : Nat)
    (board : List (List Int)) (hshape : Shaped rows columns board)
    (hL : 1 ≤ L)
    (hcells : ∀ col ∈ board, ∀ v ∈ col, v = -1 ∨ v = 0 ∨ v = 1) :
    (check rows columns L board = "player 1 win" →
      existsRun rows columns L board (L : Int) = true) ∧
    (check rows columns L board = "player 2 win" →
      existsRun rows columns L board (-(L : Int)) = true) ∧
    (existsRun rows columns L board (L : Int) = true →
      existsRun rows columns L board (-(L : Int)) = false →
      check rows columns L board = "player 1 win") ∧
    (existsRun rows columns L board (-(L : Int)) = true →
      existsRun rows columns L board (L : Int) = false →
      check rows columns L board = "player 2 win") ∧
    (existsRun rows columns L board (L : Int) = false →
      existsRun rows columns L board (-(L : Int)) = false →
      check rows columns L board ≠ "player 1 win" ∧
      check rows columns L board ≠ "player 2 win") ∧
    (∀ cells : List (Int × Int),
      (maskSum board cells = some (cells.length : Int) ↔
        ∀ p ∈ cells, pyGet2 board p.1 p.2 = some 1) ∧
      (maskSum board cells = some (-(cells.length : Int)) ↔
        ∀ p ∈ cells, pyGet2 board p.1 p.2 = some (-1))) := by
  refine ⟨check_sound_p1 hshape hL, check_sound_p2 hshape hL,
    check_complete_p1 hshape hL, check_complete_p2 hshape hL, ?_, ?_⟩
  · intro hplus hminus
    have hval := check_no_win hshape hL hplus hminus
    rw [hval]
    split_ifs <;> exact ⟨by decide, by decide⟩
  · intro cells
    constructor
    · have h := maskSum_const_iff hcells (Or.inl rfl) cells
      rw [one_mul] at h
      exact h
    · have h := maskSum_const_iff hcells (Or.inr rfl) cells
      rw [neg_one_mul] at h
      exact h

/-- Claim C3, witness: on the 2 by 2 board `[[1,0],[1,0]]` with
`winLength = 2`, only player 1 has a run, and the amended theorem yields
`check = "player 1 win"`. -/
theorem evaluate_win_iff_runs_amended_witness :
    check 2 2 2 [[1, 0], [1, 0]] = "player 1 win" :=
  (evaluate_win_iff_runs_amended 2 2 2 [[1, 0], [1, 0]]
    (by decide) (by decide) (by decide)).2.2.1 (by decide) (by decide)

/-- Claim C4: when no run of either player exists, `check` returns
`"draw"` exactly when every cell is occupied and `"incomplete"` otherwise;
and an all-empty board with positive dimensions and `winLength ≥ 1`
evaluates to `"incomplete"`. -/
theorem evaluate_no_win_draw_or_incomplete :
    (∀ (rows columns L : Nat) (board : List (List Int)),
      Shaped rows columns board → 1 ≤ L →
      existsRun rows columns L board (L : Int) = false →
      existsRun rows columns L board (-(L : Int)) = false →
      (0 ∈ board.flatten → check rows columns L board = "incomplete") ∧
      (0 ∉ board.flatten → check rows columns L board = "draw")) ∧
    (∀ rows columns L : Nat, 0 < rows → 0 < columns → 1 ≤ L →
      check rows columns L (List.replicate columns (List.replicate rows 0)) =
        "incomplete") := by
  constructor
  · intro rows columns L board hshape hL hplus hminus
    have hval := check_no_win hshape hL hplus hminus
    constructor
    · intro hmem
      rw [hval, if_pos (contains_iff_mem.mpr hmem)]
    · intro hmem
      rw [hval, if_neg (fun hcon => hmem (contains_iff_mem.mp hcon))]
  · intro rows columns L hrows hcols hL
    have hshape : Shaped rows columns
        (List.replicate columns (List.replicate rows 0)) := by
      constructor
      · exact List.length_replicate columns _
      · intro col hcol
        rw [List.eq_of_mem_replicate hcol]
        exact List.length_replicate rows 0
    have hmem : (0 : Int) ∈
        (List.replicate columns (List.replicate rows (0 : Int))).flatten := by
      apply List.mem_flatten.mpr
      refine ⟨List.replicate rows 0, ?_, ?_⟩
      · exact List.mem_replicate.mpr ⟨by omega, rfl⟩
      · exact List.mem_replicate.mpr ⟨by omega, rfl⟩
    have hval := check_no_win hshape hL
      (existsRun_zero_board (by omega))
      (existsRun_zero_board (by omega))
    rw [hval, if_pos (contains_iff_mem.mpr hmem)]

/-- Claim C4, witness: the no-run clause on the half-filled 2 by 2 board
and the all-empty clause on the 2 by 2 empty board. -/
theorem evaluate_no_win_draw_or_incomplete_witness :
    check 2 2 2 [[1, 0], [0, 0]] = "incomplete" ∧
    check 2 2 2 [[0, 0], [0, 0]] = "incomplete" :=
  ⟨(evaluate_no_win_draw_or_incomplete.1 2 2 2 [[1, 0], [0, 0]]
      (by decide) (by decide) (by decide) (by decide)).1 (by decide),
   evaluate_no_win_draw_or_incomplete.2 2 2 2
      (by decide) (by decide) (by decide)⟩

/-- Claim C5: `check` is total — on every board of the declared shape it
returns one of the four statuses (an out-of-bounds mask only makes its
`IndexError` be caught and the mask skipped) — and any reported win comes
from a fully in-bounds run, so runs that would leave the board are never
counted; this holds in particular when `winLength` exceeds a board
dimension. -/
theorem evaluate_total_and_skips_oob (rows columns L : Nat)
    (board : List (List Int)) (hshape : Shaped rows columns board)
    (hL : 1 ≤ L) :
    (check rows columns L board = "player 1 win" ∨
     check rows columns L board = "player 2 win" ∨
     check rows columns L board = "incomplete" ∨
     check rows columns L board = "draw") ∧
    (check rows columns L board = "player 1 win" →
      existsRun rows columns L board (L : Int) = true) ∧
    (check rows columns L board = "player 2 win" →
      existsRun rows columns L board (-(L : Int)) = true) := by
  refine ⟨?_, check_sound_p1 hshape hL, check_sound_p2 hshape hL⟩
  rcases check_cases rows columns L board with ⟨hval, _⟩ | ⟨i, _, j, _, hne, hval⟩
  · rw [hval]
    split_ifs
    · exact Or.inr (Or.inr (Or.inl rfl))
    · exact Or.inr (Or.inr (Or.inr rfl))
  · rw [hval]
    rcases @square_range L (i : Int) (j : Int) board with h1 | h2 | h3
    · exact Or.inl h1
    · exact Or.inr (Or.inl h2)
    · exact absurd h3 hne

/-- Claim C5, witness: a 1 by 2 board whose `winLength = 3` exceeds both
dimensions, so every mask is skipped; `check` still totals to a status. -/
theorem evaluate_total_and_skips_oob_witness :
    check 1 2 3 [[0], [7]] = "player 1 win" ∨
    check 1 2 3 [[0], [7]] = "player 2 win" ∨
    check 1 2 3 [[0], [7]] = "incomplete" ∨
    check 1 2 3 [[0], [7]] = "draw" :=
  (evaluate_total_and_skips_oob 1 2 3 [[0], [7]] (by decide) (by decide)).1

/-! ### Claim C1 about `parse_game_dimensions` -/

/-- Claim C1, counterexample to the claim as stated: rows = 2, columns = 5,
winLength = 4 satisfies `1 ≤ winLength ≤ max(rows, columns)`, so the claim
predicts success, but `parse_game_dimensions` enforces
`winLength ≤ min(rows, columns)` and fails with `"illegal game"`. -/
theorem parse_dimensions_max_bound_counterexample :
    parse_game_dimensions ["2", "5", "4"] =
      Except.error (PyError.assertionError "illegal game") ∧
    (0 < (2 : Int) ∧ 0 < (5 : Int) ∧ 1 ≤ (4 : Int) ∧
      (4 : Int) ≤ max (2 : Int) (5 : Int)) := by
  decide

/-- Claim C1 (amended): for a three-token dimensions list whose tokens parse
as the integers rows, columns, winLength, construction succeeds exactly when
rows > 0, columns > 0 and `1 ≤ winLength ≤ min(rows, columns)` (the bound is
`min`, not `max`), and fails with the `"illegal game"` assertion exactly
otherwise — in particular `winLength` equal to the `min` bound succeeds and
`winLength = 0` or a nonpositive dimension fails. -/
theorem parse_dimensions_bounds (s1 s2 s3 : String) (r c w : Int)
    (h1 : pyInt s1 = some r) (h2 : pyInt s2 = some c) (h3 : pyInt s3 = some w) :
    (parse_game_dimensions [s1, s2, s3] = Except.ok (r, c, w) ↔
      0 < r ∧ 0 < c ∧ 1 ≤ w ∧ w ≤ min r c) ∧
    (parse_game_dimensions [s1, s2, s3] =
        Except.error (PyError.assertionError "illegal game") ↔
      ¬ (0 < r ∧ 0 < c ∧ 1 ≤ w ∧ w ≤ min r c)) := by
  have hred : parse_game_dimensions [s1, s2, s3] =
      (if ¬ (0 < min (min r c) w) then
        Except.error (PyError.assertionError "illegal game")
      else if ¬ (w ≤ min r c) then
        Except.error (PyError.assertionError "illegal game")
      else Except.ok (r, c, w)) := by
    simp only [parse_game_dimensions, h1, h2, h3]
  rw [hred]
  by_cases hp : 0 < min (min r c) w
  · by_cases hw : w ≤ min r c
    · rw [if_neg (not_not_intro hp), if_neg (not_not_intro hw)]
      exact ⟨iff_of_true rfl (by omega),
        iff_of_false (by simp) (not_not_intro (by omega))⟩
    · rw [if_neg (not_not_intro hp), if_pos hw]
      exact ⟨iff_of_false (by simp) (by omega), iff_of_true rfl (by omega)⟩
  · rw [if_pos hp]
    exact ⟨iff_of_false (by simp) (by omega), iff_of_true rfl (by omega)⟩

/-- Claim C1, witness: `"7 6 4"` parses, and `winLength` exactly at the
`min` bound (4 ≤ min 7 6 = 6 would be 6; here 4 < 6, and 6 6 6 is exact). -/
theorem parse_dimensions_bounds_witness :
    parse_game_dimensions ["7", "6", "4"] = Except.ok (7, 6, 4) ∧
    parse_game_dimensions ["7", "6", "6"] = Except.ok (7, 6, 6) ∧
    parse_game_dimensions ["7", "6", "7"] =
      Except.error (PyError.assertionError "illegal game") :=
  ⟨(parse_dimensions_bounds "7" "6" "4" 7 6 4 (by decide) (by decide)
      (by decide)).1.mpr (by decide),
   (parse_dimensions_bounds "7" "6" "6" 7 6 6 (by decide) (by decide)
      (by decide)).1.mpr (by decide),
   (parse_dimensions_bounds "7" "6" "7" 7 6 7 (by decide) (by decide)
      (by decide)).2.mpr (by decide)⟩

/-! ### Claim C2 about `ConnectZGame.validate_move` -/

/-- Claim C2: `validate_move` checks its preconditions in the fixed order
column-in-range, column-not-full, game-not-won, and reports the first
failure: an out-of-range column gives `"illegal column"` whatever the rest
of the state; an in-range full column gives `"illegal row"` even when the
game is already won; a non-full in-range column with a won status gives
`"illegal continue"`; and a draw or incomplete status passes all checks. -/
theorem validate_move_check_order (g : ConnectZGame) (col : Int) :
    ((col < 0 ∨ (g.columns : Int) ≤ col) →
      g.validate_move col = .err "illegal column") ∧
    (∀ cnt : Int, 0 ≤ col → col < (g.columns : Int) →
      pyGet g.column_counters col = some cnt → cnt ≤ -1 →
      g.validate_move col = .err "illegal row") ∧
    (∀ cnt : Int, 0 ≤ col → col < (g.columns : Int) →
      pyGet g.column_counters col = some cnt → -1 < cnt →
      (g.status = "player 1 win" ∨ g.status = "player 2 win") →
      g.validate_move col = .err "illegal continue") ∧
    (∀ cnt : Int, 0 ≤ col → col < (g.columns : Int) →
      pyGet g.column_counters col = some cnt → -1 < cnt →
      (g.status = "draw" ∨ g.status = "incomplete") →
      g.validate_move col = .ok) := by
  refine ⟨?_, ?_, ?_, ?_⟩
  · intro h
    unfold ConnectZGame.validate_move
    rcases h with hneg | hge
    · rw [if_pos hneg]
    · rw [if_neg (by omega), if_pos hge]
  · intro cnt h0 hlt hcnt hfull
    unfold ConnectZGame.validate_move
    rw [if_neg (by omega), if_neg (by omega), hcnt]
    show (if cnt ≤ -1 then MoveCheck.err "illegal row" else _) = _
    rw [if_pos hfull]
  · intro cnt h0 hlt hcnt hcnt2 hwon
    unfold ConnectZGame.validate_move
    rw [if_neg (by omega), if_neg (by omega), hcnt]
    show (if cnt ≤ -1 then MoveCheck.err "illegal row"
      else if g.status = "player 1 win" ∨ g.status = "player 2 win" then
        MoveCheck.err "illegal continue" else MoveCheck.ok) = _
    rw [if_neg (by omega), if_pos hwon]
  · intro cnt h0 hlt hcnt hcnt2 hst
    unfold ConnectZGame.validate_move
    rw [if_neg (by omega), if_neg (by omega), hcnt]
    show (if cnt ≤ -1 then MoveCheck.err "illegal row"
      else if g.status = "player 1 win" ∨ g.status = "player 2 win" then
        MoveCheck.err "illegal continue" else MoveCheck.ok) = _
    rw [if_neg (by omega), if_neg ?_]
    rcases hst with hd | hd <;> rw [hd] <;> decide

/-- Claim C2, witness: a finished, partly full game rejects column 5 as
illegal column, rejects the full column 0 as illegal row even though the
game is won, rejects the free column 1 as illegal continue, and the same
position with a draw status accepts column 1. -/
theorem validate_move_check_order_witness :
    ConnectZGame.validate_move
      { rows := 2, columns := 2, win_length := 1, board := [[1, 1], [0, 0]],
        status := "player 1 win", turn := -1, column_counters := [-1, 1] } 5 =
      .err "illegal column" ∧
    ConnectZGame.validate_move
      { rows := 2, columns := 2, win_length := 1, board := [[1, 1], [0, 0]],
        status := "player 1 win", turn := -1, column_counters := [-1, 1] } 0 =
      .err "illegal row" ∧
    ConnectZGame.validate_move
      { rows := 2, columns := 2, win_length := 1, board := [[1, 1], [0, 0]],
        status := "player 1 win", turn := -1, column_counters := [-1, 1] } 1 =
      .err "illegal continue" ∧
    ConnectZGame.validate_move
      { rows := 2, columns := 2, win_length := 1, board := [[1, 1], [0, 0]],
        status := "draw", turn := -1, column_counters := [-1, 1] } 1 = .ok :=
  ⟨(validate_move_check_order _ 5).1 (Or.inr (by decide)),
   (validate_move_check_order _ 0).2.1 (-1) (by decide) (by decide) (by decide)
     (by decide),
   (validate_move_check_order _ 1).2.2.1 1 (by decide) (by decide) (by decide)
     (by decide) (Or.inl rfl),
   (validate_move_check_order _ 1).2.2.2 1 (by decide) (by decide) (by decide)
     (by decide) (Or.inl rfl)⟩

/-! ### Claim C10 about rejected moves -/

/-- Claim C10: when `validate_move` rejects a move (any of the three
checks), `make_move` raises before any mutation, so the returned state is
exactly the input state — board, counters, status and turn included — and
the assertion message is propagated. -/
theorem failed_move_leaves_state_unchanged (g : ConnectZGame) (col : Int)
    (m : String) (h : g.validate_move col = .err m) :
    g.make_move col = (g, .error (.assertionError m)) := by
  unfold ConnectZGame.make_move
  rw [h]

/-- Claim C10, witness: a freshly built game rejects column -1 and is
returned unchanged. -/
theorem failed_move_leaves_state_unchanged_witness :
    (ConnectZGame.init 2 2 1).make_move (-1) =
      (ConnectZGame.init 2 2 1,
        .error (.assertionError "illegal column")) :=
  failed_move_leaves_state_unchanged (ConnectZGame.init 2 2 1) (-1)
    "illegal column" (by decide)

/-! ### Claims C6, C7, C8 about the driver -/

/-- Claim C6 evaluated on the code: a dimensions line with fewer than three
tokens does print code 8, but a non-integer dimension token and a
non-integer move token both raise a `ValueError` that `main` does not
catch, so the run crashes and prints no code at all instead of 8. -/
theorem malformed_tokens_crash_without_code :
    mainOutput "7 6" = some 8 ∧
    parse_and_play "7 6 x" = .error .valueError ∧
    mainOutput "7 6 x" = none ∧
    parse_and_play "7 6 4\ny" = .error .valueError ∧
    mainOutput "7 6 4\ny" = none := by
  refine ⟨rfl, rfl, rfl, rfl, rfl⟩

/-- Claim C7, counterexample to the claim as stated: the file `"7 6 4\n"`
has valid dimensions and contributes no moves, but its trailing blank line
becomes the empty move token, `int("")` raises an uncaught `ValueError`,
and the program crashes instead of printing 3. -/
theorem trailing_blank_line_counterexample :
    parse_and_play "7 6 4\n" = .error .valueError ∧
    mainOutput "7 6 4\n" = none ∧ mainOutput "7 6 4\n" ≠ some 3 := by
  refine ⟨rfl, rfl, by decide⟩

/-- Claim C7 (amended): for a file that consists of a single valid
dimensions line and nothing else (no trailing newline — a trailing blank
line instead crashes the run with an uncaught `ValueError`), the move list
is empty, the game ends incomplete, and the program prints code 3. -/
theorem empty_moves_incomplete_code3 (s sdims : String) (r c w : Int)
    (hsplit : pySplitOn s '\n' = [sdims])
    (hdims : parse_game_dimensions (pySplitOn sdims ' ') = Except.ok (r, c, w)) :
    parse_and_play s = Except.ok "incomplete" ∧ mainOutput s = some 3 := by
  have hpp : parse_and_play s = Except.ok "incomplete" := by
    unfold parse_and_play parse_input_text
    rw [hsplit]
    show (match parse_game_dimensions (pySplitOn sdims ' ') with
      | .error e => .error e
      | .ok (rows, columns, win_length) =>
        (playMoves (ConnectZGame.init rows.toNat columns.toNat win_length.toNat)
          []).map ConnectZGame.status) = Except.ok "incomplete"
    rw [hdims]
    rfl
  refine ⟨hpp, ?_⟩
  unfold mainOutput
  rw [hpp]
  rfl

/-- Claim C7, witness: the one-line file `"7 6 4"`. -/
theorem empty_moves_incomplete_code3_witness :
    parse_and_play "7 6 4" = Except.ok "incomplete" ∧
    mainOutput "7 6 4" = some 3 :=
  empty_moves_incomplete_code3 "7 6 4" "7 6 4" 7 6 4 (by decide) (by decide)

/-- Claim C8: the seed scenario — dimensions `"7 6 4"`, moves
1,2,1,2,1,2,1 — ends as player-1 win (four in column 1) and the program
prints code 1. -/
theorem seed_game_player1_win :
    parse_and_play "7 6 4\n1\n2\n1\n2\n1\n2\n1" = Except.ok "player 1 win" ∧
    mainOutput "7 6 4\n1\n2\n1\n2\n1\n2\n1" = some 1 := by
  refine ⟨rfl, rfl⟩

/-! ### Claim C9 about successful moves -/

theorem validate_ok_inv {g : ConnectZGame} {col : Int}
    (h : g.validate_move col = .ok) :
    0 ≤ col ∧ col < (g.columns : Int) ∧
    ∀ cnt, pyGet g.column_counters col = some cnt → -1 < cnt := by
  unfold ConnectZGame.validate_move at h
  by_cases h1 : col < 0
  · rw [if_pos h1] at h; cases h
  rw [if_neg h1] at h
  by_cases h2 : (g.columns : Int) ≤ col
  · rw [if_pos h2] at h; cases h
  rw [if_neg h2] at h
  cases hcnt : pyGet g.column_counters col with
  | none => rw [hcnt] at h; cases h
  | some cnt =>
    rw [hcnt] at h
    have hok : ¬ (cnt ≤ -1) := by
      intro h3
      replace h : MoveCheck.err "illegal row" = MoveCheck.ok := by
        rw [← h]
        show _ = (if cnt ≤ -1 then MoveCheck.err "illegal row" else _)
        rw [if_pos h3]
      cases h
    refine ⟨by omega, by omega, ?_⟩
    intro cnt2 hcnt2
    have hval := Option.some_inj.mp hcnt2
    omega

theorem make_move_ok_inv {g g2 : ConnectZGame} {col : Int} {s : String}
    (h : g.make_move col = (g2, Except.ok s)) :
    ∃ row_level colList colList2 board2 counters2,
      g.validate_move col = .ok ∧
      pyGet g.column_counters col = some row_level ∧
      pyGet g.board col = some colList ∧
      pySet colList row_level g.turn = some colList2 ∧
      pySet g.board col colList2 = some board2 ∧
      pySet g.column_counters col (row_level - 1) = some counters2 ∧
      g2 = { g with
        board := board2,
        status := check g.rows g.columns g.win_length board2,
        column_counters := counters2,
        turn := g.turn * (-1) } ∧
      s = check g.rows g.columns g.win_length board2 := by
  unfold ConnectZGame.make_move at h
  split at h
  next m hval => simp at h
  next hval => simp at h
  next hval =>
    split at h
    next hcnt => simp at h
    next row_level hcnt =>
      split at h
      next hcol => simp at h
      next colList hcol =>
        split at h
        next hset1 => simp at h
        next colList2 hset1 =>
          split at h
          next hset2 => simp at h
          next board2 hset2 =>
            split at h
            next hset3 => simp at h
            next counters2 hset3 =>
              simp only [Prod.mk.injEq, Except.ok.injEq] at h
              exact ⟨row_level, colList, colList2, board2, counters2,
                hval, hcnt, hcol, hset1, hset2, hset3, h.1.symm, h.2.symm⟩

/-- Claim C9: a successful `make_move` changes exactly one board cell —
the previously empty cell at the selected column's current counter level,
which receives the mover's mark — leaves every other cell and every other
column counter unchanged, advances (decrements) the selected counter by
one, flips the player, records and returns the status computed by the win
checker on the updated board, and leaves the dimensions untouched. -/
theorem successful_move_effects (g g2 : ConnectZGame) (col : Int) (s : String)
    (hg : GoodState g) (h : g.make_move col = (g2, Except.ok s)) :
    ∃ rl : Nat,
      pyGet g.column_counters col = some (rl : Int) ∧
      pyGet2 g.board col (rl : Int) = some 0 ∧
      pyGet2 g2.board col (rl : Int) = some g.turn ∧
      g.turn ≠ 0 ∧
      (∀ c r : Nat, ¬((c : Int) = col ∧ r = rl) →
        pyGet2 g2.board (c : Int) (r : Int) =
          pyGet2 g.board (c : Int) (r : Int)) ∧
      pyGet g2.column_counters col = some ((rl : Int) - 1) ∧
      (∀ c : Nat, (c : Int) ≠ col →
        pyGet g2.column_counters (c : Int) = pyGet g.column_counters (c : Int)) ∧
      g2.turn = -g.turn ∧ g2.turn ≠ g.turn ∧
      g2.status = s ∧ s = check g.rows g.columns g.win_length g2.board ∧
      g2.rows = g.rows ∧ g2.columns = g.columns ∧
      g2.win_length = g.win_length := by
  obtain ⟨row_level, colList, colList2, board2, counters2, hval, hcnt, hcol,
    hset1, hset2, hset3, hg2, hs⟩ := make_move_ok_inv h
  obtain ⟨⟨hblen, hcols⟩, hclen, hcbound, hturn, hempty⟩ := hg
  obtain ⟨hc0, hclt, hcntpos⟩ := validate_ok_inv hval
  subst hg2
  have hrl0 : -1 < row_level := hcntpos row_level hcnt
  have hrlrow : row_level < (g.rows : Int) :=
    (hcbound row_level (pyGet_mem hcnt)).2
  have hcolnat : ((col.toNat : Nat) : Int) = col := Int.toNat_of_nonneg hc0
  have hrlnat : ((row_level.toNat : Nat) : Int) = row_level :=
    Int.toNat_of_nonneg (by omega)
  obtain ⟨hc2eq, hrlltc⟩ := pySet_nonneg_some (by omega) hset1
  obtain ⟨hb2eq, hnltb⟩ := pySet_nonneg_some hc0 hset2
  obtain ⟨hk2eq, hnltk⟩ := pySet_nonneg_some hc0 hset3
  -- basic lookups
  have hcolget : g.board.get? col.toNat = some colList := by
    rw [← pyGet_natCast, hcolnat]; exact hcol
  have hcntget : g.column_counters.get? col.toNat = some row_level := by
    rw [← pyGet_natCast, hcolnat]; exact hcnt
  have hcollen : colList.length = g.rows := hcols colList (List.get?_mem hcolget)
  have hrlltrows : row_level.toNat < g.rows := by omega
  have hnltcols : col.toNat < g.columns := by omega
  -- the selected cell held 0 before the move
  obtain ⟨v, hv⟩ : ∃ v, colList.get? row_level.toNat = some v := by
    rw [List.get?_eq_get (by omega)]
    exact ⟨_, rfl⟩
  have hv0 : v = 0 := by
    have hle : ((row_level.toNat : Nat) : Int) ≤
        g.column_counters.getD col.toNat 0 := by
      rw [hrlnat, List.getD_eq_get?, hcntget]
      rfl
    have hz := hempty col.toNat (List.mem_range.mpr hnltcols)
      row_level.toNat (List.mem_range.mpr hrlltrows) hle
    have hbd : g.board.getD col.toNat [] = colList := by
      rw [List.getD_eq_get?, hcolget]
      rfl
    rw [hbd, List.getD_eq_get?, hv] at hz
    simpa using hz
  subst hv0
  have hprev : pyGet2 g.board col ((row_level.toNat : Nat) : Int) = some 0 := by
    unfold pyGet2
    rw [hcol]
    show pyGet colList _ = some 0
    rw [pyGet_natCast]
    exact hv
  -- lookups after the move
  have hb2get : board2.get? col.toNat = some colList2 := by
    rw [hb2eq, List.get?_set_eq, hcolget]
    rfl
  have hc2get : colList2.get? row_level.toNat = some g.turn := by
    rw [hc2eq, List.get?_set_eq, hv]
    rfl
  have hnew : pyGet2 board2 col ((row_level.toNat : Nat) : Int) = some g.turn := by
    unfold pyGet2
    rw [show pyGet board2 col = some colList2 by
      rw [← hcolnat, pyGet_natCast]; exact hb2get]
    show pyGet colList2 _ = some g.turn
    rw [pyGet_natCast]
    exact hc2get
  have hturn0 : g.turn ≠ 0 := by
    rcases hturn with ht | ht <;> rw [ht] <;> decide
  refine ⟨row_level.toNat, by rw [hrlnat]; exact hcnt, hprev, hnew, hturn0,
    ?_, ?_, ?_, ?_, ?_, ?_, ?_, rfl, rfl, rfl⟩
  · -- every other cell is unchanged
    intro c r hne
    show pyGet2 board2 _ _ = pyGet2 g.board _ _
    by_cases hcc : (c : Int) = col
    · have hceq : c = col.toNat := by omega
      have hrne : r ≠ row_level.toNat := fun hr => hne ⟨hcc, hr⟩
      unfold pyGet2
      rw [pyGet_natCast, pyGet_natCast, hceq, hb2get, hcolget]
      show pyGet colList2 _ = pyGet colList _
      rw [pyGet_natCast, pyGet_natCast, hc2eq,
        List.get?_set_ne g.turn colList (fun hx => hrne hx.symm)]
    · have hcne : c ≠ col.toNat := by omega
      unfold pyGet2
      rw [pyGet_natCast, pyGet_natCast, hb2eq,
        List.get?_set_ne colList2 g.board (fun hx => hcne hx.symm)]
  · -- the selected counter is decremented
    show pyGet counters2 col = _
    rw [← hcolnat, pyGet_natCast, hk2eq, List.get?_set_eq, hcntget, hrlnat]
    rfl
  · -- every other counter is unchanged
    intro c hcc
    have hcne : c ≠ col.toNat := by omega
    show pyGet counters2 _ = pyGet g.column_counters _
    rw [pyGet_natCast, pyGet_natCast, hk2eq,
      List.get?_set_ne (row_level - 1) g.column_counters (fun hx => hcne hx.symm)]
  · show g.turn * (-1) = -g.turn
    ring
  · show g.turn * (-1) ≠ g.turn
    rcases hturn with ht | ht <;> rw [ht] <;> decide
  · exact hs.symm
  · exact hs

/-- The state reached by the witness move below: column 0 of a fresh
2 by 2, winLength-2 game receives the player-1 counter at level 1. -/
def demoAfter : ConnectZGame where
  rows := 2
  columns := 2
  win_length := 2
  board := [[0, 1], [0, 0]]
  status := "incomplete"
  turn := -1
  column_counters := [0, 1]

/-- Claim C9, witness: the first move of a fresh 2 by 2 game with
`winLength = 2`, dropped in column 0. -/
theorem successful_move_effects_witness :
    GoodState (ConnectZGame.init 2 2 2) ∧
    (∃ rl : Nat,
      pyGet (ConnectZGame.init 2 2 2).column_counters 0 = some (rl : Int) ∧
      pyGet2 (ConnectZGame.init 2 2 2).board 0 (rl : Int) = some 0 ∧
      pyGet2 demoAfter.board 0 (rl : Int) =
        some (ConnectZGame.init 2 2 2).turn ∧
      (ConnectZGame.init 2 2 2).turn ≠ 0 ∧
      (∀ c r : Nat, ¬((c : Int) = 0 ∧ r = rl) →
        pyGet2 demoAfter.board (c : Int) (r : Int) =
          pyGet2 (ConnectZGame.init 2 2 2).board (c : Int) (r : Int)) ∧
      pyGet demoAfter.column_counters 0 = some ((rl : Int) - 1) ∧
      (∀ c : Nat, (c : Int) ≠ 0 →
        pyGet demoAfter.column_counters (c : Int) =
          pyGet (ConnectZGame.init 2 2 2).column_counters (c : Int)) ∧
      demoAfter.turn = -(ConnectZGame.init 2 2 2).turn ∧
      demoAfter.turn ≠ (ConnectZGame.init 2 2 2).turn ∧
      demoAfter.status = "incomplete" ∧
      "incomplete" = check (ConnectZGame.init 2 2 2).rows
        (ConnectZGame.init 2 2 2).columns
        (ConnectZGame.init 2 2 2).win_length demoAfter.board ∧
      demoAfter.rows = (ConnectZGame.init 2 2 2).rows ∧
      demoAfter.columns = (ConnectZGame.init 2 2 2).columns ∧
      demoAfter.win_length = (ConnectZGame.init 2 2 2).win_length) :=
  ⟨by decide,
   successful_move_effects (ConnectZGame.init 2 2 2) demoAfter 0 "incomplete"
     (by decide) rfl⟩

end ConnectZ
